import Mathlib

/-!
Verification of the JavaCard CAP/IJC utilities (pySim/javacard.py).

Bytes are modelled as `List Nat` (each element a byte value 0..255 where the
code reads them from a file).  Python exceptions are modelled by structured
error values carrying the same data that the exception messages carry.
External collaborators (zipfile, construct, b2h) are modelled by their
documented behaviour: a zip archive is a list of (entry name, entry bytes)
pairs, the construct combinators become explicit byte-cursor parsers, and
b2h is a lowercase hex rendering.
-/

namespace Javacard

/-- Structured stand-ins for the Python exceptions raised by the code.
`missingComponent`, `missingOptionalComponent`, `invalidMagic` and
`appletIndexOutOfRange` carry the data interpolated into the corresponding
`ValueError` message strings.  `indexError` models a Python `IndexError`
from an out-of-range list subscript, `structError` models `struct.error`
or a `construct` parse failure.  `unknownTag` and `truncatedStream` are the
error kinds named by the specification; they are included so that the
specification claims about them can be stated. -/
inductive CapError where
  | missingComponent (name : String)
  | missingOptionalComponent (name : String)
  | invalidMagic (found expected : Nat)
  | appletIndexOutOfRange (index count : Nat)
  | unknownTag (tag : Nat)
  | truncatedStream
  | indexError
  | structError
deriving DecidableEq, Repr

/-- The twelve CAP component kinds, one per `__component_*` slot of the
Python `CapFile` class. -/
inductive ComponentKind where
  | header
  | directory
  | applet
  | importC
  | constantPool
  | classC
  | method
  | staticField
  | referenceLocation
  | exportC
  | descriptor
  | debug
deriving DecidableEq, Fintype, Repr

/-- The lowercase file-name suffix the `CapFile.__init__` elif chain tests
for each component (e.g. `filename.lower().endswith(\x27header.cap\x27)`). -/
def componentSuffix : ComponentKind → List Char
  | .header => "header.cap".toList
  | .directory => "directory.cap".toList
  | .applet => "applet.cap".toList
  | .importC => "import.cap".toList
  | .constantPool => "constantpool.cap".toList
  | .classC => "class.cap".toList
  | .method => "method.cap".toList
  | .staticField => "staticfield.cap".toList
  | .referenceLocation => "reflocation.cap".toList
  | .exportC => "export.cap".toList
  | .descriptor => "descriptor.cap".toList
  | .debug => "debug.cap".toList

/-- The component name as it appears in the `ValueError` messages of
`CapFile.__init__` (`COMPONENT_<name> missing!`). -/
def nameOfKind : ComponentKind → String
  | .header => "Header"
  | .directory => "Directory"
  | .applet => "Applet"
  | .importC => "Import"
  | .constantPool => "ConstantPool"
  | .classC => "Class"
  | .method => "Method"
  | .staticField => "StaticField"
  | .referenceLocation => "ReferenceLocation"
  | .exportC => "Export"
  | .descriptor => "Descriptor"
  | .debug => "Debug"

/-- Python `str.lower()` restricted to the ASCII case mapping, applied
character-wise (sufficient for the ASCII suffixes compared against). -/
def lowerName (name : List Char) : List Char := name.map Char.toLower

/-- Whether an archive entry name matches the given component, i.e.
`name.lower().endswith(componentSuffix)`. -/
def matchesComponent (k : ComponentKind) (name : List Char) : Bool :=
  (componentSuffix k).isSuffixOf (lowerName name)

/-- The order in which `CapFile.__init__` tests the suffixes (the elif
chain, lines 86-109 of javacard.py). -/
def kindOrder : List ComponentKind :=
  [.header, .directory, .applet, .importC, .constantPool, .classC,
   .method, .staticField, .referenceLocation, .exportC, .descriptor, .debug]

/-- Classification of one entry name by the elif chain of
`CapFile.__init__`: the first component whose suffix matches, if any.
`List.find?` over `kindOrder` is exactly the first-match semantics of the
elif chain; unmatched names produce `none` (the entry is discarded). -/
def classify (name : List Char) : Option ComponentKind :=
  kindOrder.find? (fun k => matchesComponent k name)

/-- The twelve `__component_*` slots of the Python `CapFile` class, each
`None` (here `none`) until an archive entry is stored into it. -/
structure CapFile where
  component_header : Option (List Nat) := none
  component_directory : Option (List Nat) := none
  component_applet : Option (List Nat) := none
  component_import : Option (List Nat) := none
  component_constantPool : Option (List Nat) := none
  component_class : Option (List Nat) := none
  component_method : Option (List Nat) := none
  component_staticField : Option (List Nat) := none
  component_referenceLocation : Option (List Nat) := none
  component_export : Option (List Nat) := none
  component_descriptor : Option (List Nat) := none
  component_debug : Option (List Nat) := none
deriving DecidableEq, Repr

/-- Read the slot assigned to a component kind. -/
def slotGet (k : ComponentKind) (c : CapFile) : Option (List Nat) :=
  match k with
  | .header => c.component_header
  | .directory => c.component_directory
  | .applet => c.component_applet
  | .importC => c.component_import
  | .constantPool => c.component_constantPool
  | .classC => c.component_class
  | .method => c.component_method
  | .staticField => c.component_staticField
  | .referenceLocation => c.component_referenceLocation
  | .exportC => c.component_export
  | .descriptor => c.component_descriptor
  | .debug => c.component_debug

/-- Overwrite the slot assigned to a component kind. -/
def setSlot (k : ComponentKind) (data : List Nat) (c : CapFile) : CapFile :=
  match k with
  | .header => { c with component_header := some data }
  | .directory => { c with component_directory := some data }
  | .applet => { c with component_applet := some data }
  | .importC => { c with component_import := some data }
  | .constantPool => { c with component_constantPool := some data }
  | .classC => { c with component_class := some data }
  | .method => { c with component_method := some data }
  | .staticField => { c with component_staticField := some data }
  | .referenceLocation => { c with component_referenceLocation := some data }
  | .exportC => { c with component_export := some data }
  | .descriptor => { c with component_descriptor := some data }
  | .debug => { c with component_debug := some data }

/-- One iteration of the entry loop of `CapFile.__init__`: classify the
entry name and store the entry bytes into the matched slot, or leave the
object unchanged when no suffix matches. -/
def storeEntry (c : CapFile) (name : List Char) (data : List Nat) : CapFile :=
  match classify name with
  | some k => setSlot k data c
  | none => c

/-- The nine mandatory components, in the order `CapFile.__init__` checks
them (lines 113-130 of javacard.py). -/
def mandatoryKinds : List ComponentKind :=
  [.header, .directory, .importC, .constantPool, .classC,
   .method, .staticField, .referenceLocation, .descriptor]

/-- `CapFile.__init__`: iterate over the archive entries (name, bytes)
classifying each into a slot, then check the nine mandatory slots for
`None` in source order, raising `ValueError` (here `missingComponent` with
the component name from the message) for the first missing one. -/
def capFileInit (entries : List (List Char × List Nat)) : Except CapError CapFile :=
  let c := entries.foldl (fun acc e => storeEntry acc e.1 e.2) {}
  if c.component_header.isNone then .error (.missingComponent "Header")
  else if c.component_directory.isNone then .error (.missingComponent "Directory")
  else if c.component_import.isNone then .error (.missingComponent "Import")
  else if c.component_constantPool.isNone then .error (.missingComponent "ConstantPool")
  else if c.component_class.isNone then .error (.missingComponent "Class")
  else if c.component_method.isNone then .error (.missingComponent "Method")
  else if c.component_staticField.isNone then .error (.missingComponent "StaticField")
  else if c.component_referenceLocation.isNone then .error (.missingComponent "ReferenceLocation")
  else if c.component_descriptor.isNone then .error (.missingComponent "Descriptor")
  else .ok c

/-- Python truthiness of an optional bytes value: `None` and `b\x27\x27`
are falsy, non-empty bytes are truthy.  This is the test used by
`if self.__component_applet:` and the other two guards in
`get_loadfile`. -/
def pyTruthy (o : Option (List Nat)) : Bool :=
  match o with
  | some (_ :: _) => true
  | _ => false

/-- The bytes contributed by a guarded optional component in
`get_loadfile`: the component bytes when truthy, nothing otherwise. -/
def pyGuard (o : Option (List Nat)) : List Nat :=
  if pyTruthy o then o.getD [] else []

/-- The bytes of an optional slot, empty when absent.  Used to phrase
"the present components" in theorem statements: an absent or empty
component contributes no bytes. -/
def optBytes : Option (List Nat) → List Nat
  | some l => l
  | none => []

/-- Lowercase hex digit. -/
def hexChar (n : Nat) : Char :=
  if n < 10 then Char.ofNat (48 + n) else Char.ofNat (87 + n)

/-- `osmocom.utils.b2h`: render a byte sequence as a lowercase hex
string (modelled collaborator, spec section 6). -/
def b2h (bs : List Nat) : String :=
  String.mk (bs.flatMap fun b => [hexChar (b / 16 % 16), hexChar (b % 16)])

/-- `CapFile.get_loadfile`: concatenate the components in the fixed order
Header, Directory, Import, [Applet], Class, Method, StaticField, [Export],
ConstantPool, ReferenceLocation, [Descriptor] and render as hex.  The
three optional contributions are guarded by Python truthiness.  A `None`
mandatory slot would raise `TypeError` in Python; that is modelled by
`none` (it cannot occur for an object produced by `capFileInit`). -/
def get_loadfile (c : CapFile) : Option String :=
  match c.component_header, c.component_directory, c.component_import,
        c.component_class, c.component_method, c.component_staticField,
        c.component_constantPool, c.component_referenceLocation with
  | some h, some d, some imp, some cl, some me, some sf, some cp, some rl =>
      some (b2h (h ++ d ++ imp ++ pyGuard c.component_applet ++ cl ++ me ++ sf
        ++ pyGuard c.component_export ++ cp ++ rl ++ pyGuard c.component_descriptor))
  | _, _, _, _, _, _, _, _ => none

/-- `Int8ub`: consume one byte. -/
def parseU8 : List Nat → Option (Nat × List Nat)
  | [] => none
  | b :: r => some (b, r)

/-- `Int16ub`: consume two bytes, big endian. -/
def parseU16 (bs : List Nat) : Option (Nat × List Nat) := do
  let (a, r1) ← parseU8 bs
  let (b, r2) ← parseU8 r1
  pure (a * 256 + b, r2)

/-- `Int32ub`: consume four bytes, big endian. -/
def parseU32 (bs : List Nat) : Option (Nat × List Nat) := do
  let (a, r1) ← parseU16 bs
  let (b, r2) ← parseU16 r1
  pure (a * 65536 + b, r2)

/-- `LV` (osmocom.construct): one length byte followed by that many raw
bytes; fails when fewer bytes remain than the length byte demands. -/
def parseLV : List Nat → Option (List Nat × List Nat)
  | [] => none
  | n :: r => if n ≤ r.length then some (r.take n, r.drop n) else none

/-- The decoded view of the `package` sub-record of the Header
component. -/
structure PackageInfo where
  minor_version : Nat
  major_version : Nat
  AID : List Nat
deriving DecidableEq, Repr

/-- The decoded view of the compact Header component
(`CapFile.__header_component_compact`). -/
structure HeaderComponent where
  tag : Nat
  size : Nat
  magic : Nat
  minor_version : Nat
  major_version : Nat
  flags : Nat
  package : PackageInfo
  package_name : Option (List Nat)
deriving DecidableEq, Repr

/-- The fixed leading fields of the Header component, everything before
the optional `package_name`. -/
structure HeaderFields where
  tag : Nat
  size : Nat
  magic : Nat
  minor_version : Nat
  major_version : Nat
  flags : Nat
  package : PackageInfo
deriving DecidableEq, Repr

/-- Assemble a decoded Header record from its fixed fields and the
decoded optional `package_name`. -/
def withName (f : HeaderFields) (pn : Option (List Nat)) : HeaderComponent :=
  ⟨f.tag, f.size, f.magic, f.minor_version, f.major_version, f.flags, f.package, pn⟩

/-- The fixed leading fields of `__header_component_compact`, everything
up to and including the `package` sub-record; the unconsumed remainder
is returned. -/
def header_fields_parse (bs : List Nat) : Option (HeaderFields × List Nat) := do
  let (tag, r1) ← parseU8 bs
  let (size, r2) ← parseU16 r1
  let (magic, r3) ← parseU32 r2
  let (minor, r4) ← parseU8 r3
  let (major, r5) ← parseU8 r4
  let (flags, r6) ← parseU8 r5
  let (pminor, r7) ← parseU8 r6
  let (pmajor, r8) ← parseU8 r7
  let (aid, r9) ← parseLV r8
  pure (⟨tag, size, magic, minor, major, flags, ⟨pminor, pmajor, aid⟩⟩, r9)

/-- `CapFile.__header_component_compact.parse`: the fixed fields followed
by `COptional(LV)` for `package_name`.  `construct.Optional` attempts the
sub-parser and rolls back to the current position on failure, so a
trailing byte sequence that is not a complete LV leaves `package_name`
unset without failing the whole parse. -/
def header_component_compact_parse (bs : List Nat) : Option (HeaderComponent × List Nat) := do
  let (f, r) ← header_fields_parse bs
  match parseLV r with
  | some (pn, r2) => pure (withName f (some pn), r2)
  | none => pure (withName f none, r)

/-- `CapFile.get_loadfile_aid`: parse the Header component, check the
magic constant, return the package AID.  (`header[\x27magic\x27] or 0` is
the identity on the integer the parser produces.)  A `None` header slot
or a parse failure is modelled as `structError`. -/
def get_loadfile_aid (c : CapFile) : Except CapError (List Nat) :=
  match c.component_header with
  | none => .error .structError
  | some bs =>
    match header_component_compact_parse bs with
    | none => .error .structError
    | some (h, _) =>
      if h.magic ≠ 0xDECAFFED then .error (.invalidMagic h.magic 0xDECAFFED)
      else .ok h.package.AID

/-- One element of the `applets` array of the Applet component. -/
structure AppletEntry where
  AID : List Nat
  install_method_offset : Nat
deriving DecidableEq, Repr

/-- The decoded view of the compact Applet component
(`CapFile.__applet_component_compact`). -/
structure AppletComponent where
  tag : Nat
  size : Nat
  count : Nat
  applets : List AppletEntry
deriving DecidableEq, Repr

/-- `Array(this.count, Struct(AID/LV, install_method_offset/Int16ub))`. -/
def parseAppletEntries : Nat → List Nat → Option (List AppletEntry × List Nat)
  | 0, r => some ([], r)
  | n + 1, r => do
    let (aid, r1) ← parseLV r
    let (off, r2) ← parseU16 r1
    let (rest, r3) ← parseAppletEntries n r2
    pure (⟨aid, off⟩ :: rest, r3)

/-- `CapFile.__applet_component_compact.parse`. -/
def applet_component_compact_parse (bs : List Nat) : Option (AppletComponent × List Nat) := do
  let (tag, r1) ← parseU8 bs
  let (size, r2) ← parseU16 r1
  let (count, r3) ← parseU8 r2
  let (applets, r4) ← parseAppletEntries count r3
  pure (⟨tag, size, count, applets⟩, r4)

/-- `CapFile.get_applet_aid`: requires the optional Applet component,
parses it, rejects `index > count` with the range error, then subscripts
the zero-based `applets` list; an out-of-range subscript (which Python
reaches for `index == count`) raises `IndexError`, modelled as
`indexError`. -/
def get_applet_aid (c : CapFile) (index : Nat) : Except CapError (List Nat) :=
  match c.component_applet with
  | none => .error (.missingOptionalComponent "Applet")
  | some bs =>
    match applet_component_compact_parse bs with
    | none => .error .structError
    | some (a, _) =>
      if index > a.count then .error (.appletIndexOutOfRange index a.count)
      else
        match a.applets.get? index with
        | some e => .ok e.AID
        | none => .error .indexError

/-- The `TAGS` list of `ijc_to_cap`, indexed by `tag - 1`. -/
def TAGS : List String :=
  ["Header", "Directory", "Applet", "Import", "ConstantPool", "Class",
   "Method", "StaticField", "RefLocation", "Export", "Descriptor", "Debug"]

/-- Python list subscript semantics for `TAGS[i]` with a possibly
negative index: a negative index counts from the end of the list;
anything out of range raises `IndexError` (here `none`). -/
def pyIndex (l : List String) (i : Int) : Option String :=
  if 0 ≤ i then l.get? i.toNat
  else if (-i).toNat ≤ l.length then l.get? (l.length - (-i).toNat)
  else none

/-- The loop body of `ijc_to_cap`, with an explicit fuel argument bounding
the number of iterations of the Python `while len(b):` loop (each
iteration consumes at least three bytes, so `b.length` iterations always
suffice; the `0` fuel case is unreachable from `ijc_to_cap`).  Returns
the entries written to the zip before termination or failure, paired with
the failure if any: reading the 3-byte prefix from fewer than 3 bytes
fails `struct.unpack` (`structError`); `TAGS[tag-1]` out of range raises
`IndexError`; the slice `b[0:3+size]` silently truncates at the end of
the stream. -/
def ijcLoop (p : String) : Nat → List Nat → List (String × List Nat) × Option CapError
  | _, [] => ([], none)
  | fuel + 1, t :: s1 :: s2 :: r =>
    let size := s1 * 256 + s2
    match pyIndex TAGS ((t : Int) - 1) with
    | none => ([], some .indexError)
    | some name =>
      let unit := (t :: s1 :: s2 :: r).take (3 + size)
      let rest := (t :: s1 :: s2 :: r).drop (3 + size)
      let next := ijcLoop p fuel rest
      ((p ++ "/javacard/" ++ name ++ ".cap", unit) :: next.1, next.2)
  | _ + 1, _ => ([], some .structError)
  | 0, _ => ([], none)

/-- `ijc_to_cap(in_file, out_zip, p)`: split the flat IJC byte stream
into tagged units, writing each under `p + "/javacard/" + name + ".cap"`.
The result collects the written entries in order and the error, if any,
that terminated the loop. -/
def ijc_to_cap (p : String) (b : List Nat) : List (String × List Nat) × Option CapError :=
  ijcLoop p b.length b

/-- A synthetic well-formed IJC record: a tag and a payload. -/
structure IjcRecord where
  tag : Nat
  payload : List Nat
deriving DecidableEq, Repr

/-- The wire encoding of a record: tag byte, 2-byte big-endian size,
payload. -/
def encodeRecord (r : IjcRecord) : List Nat :=
  r.tag :: (r.payload.length / 256) :: (r.payload.length % 256) :: r.payload

/-! ### Lemmas about entry classification -/

lemma componentSuffix_not_suffix :
    ∀ k k' : ComponentKind, k ≠ k' → ¬ (componentSuffix k <:+ componentSuffix k') := by
  decide

lemma matchesComponent_unique (name : List Char) (k k' : ComponentKind)
    (h1 : matchesComponent k name = true) (h2 : matchesComponent k' name = true) : k = k' := by
  by_contra hne
  have s1 : componentSuffix k <:+ lowerName name := by
    simpa [matchesComponent] using h1
  have s2 : componentSuffix k' <:+ lowerName name := by
    simpa [matchesComponent] using h2
  rcases List.suffix_or_suffix_of_suffix s1 s2 with h | h
  · exact componentSuffix_not_suffix k k' hne h
  · exact componentSuffix_not_suffix k' k (Ne.symm hne) h

lemma mem_kindOrder (k : ComponentKind) : k ∈ kindOrder := by
  cases k <;> simp [kindOrder]

lemma classify_eq_some_iff (name : List Char) (k : ComponentKind) :
    classify name = some k ↔ matchesComponent k name = true := by
  constructor
  · intro h
    simp only [classify] at h
    have hp := List.find?_some h
    simpa using hp
  · intro h
    cases hc : classify name with
    | none =>
      simp only [classify] at hc
      have := List.find?_eq_none.mp hc k (mem_kindOrder k)
      simp [h] at this
    | some k' =>
      have hc' := hc
      simp only [classify] at hc'
      have hp := List.find?_some hc'
      have hk' : matchesComponent k' name = true := by simpa using hp
      exact congrArg some (matchesComponent_unique name k' k hk' h)

/-! ### Lemmas about slot assignment during construction -/

lemma slotGet_setSlot_same (k : ComponentKind) (data : List Nat) (c : CapFile) :
    slotGet k (setSlot k data c) = some data := by
  cases k <;> rfl

lemma slotGet_setSlot_ne (k k' : ComponentKind) (hne : k ≠ k') (data : List Nat) (c : CapFile) :
    slotGet k (setSlot k' data c) = slotGet k c := by
  cases k <;> cases k' <;> first | exact absurd rfl hne | rfl

lemma slotGet_init (k : ComponentKind) : slotGet k ({} : CapFile) = none := by
  cases k <;> rfl

lemma slotGet_storeEntry (k : ComponentKind) (c : CapFile) (name : List Char) (data : List Nat) :
    slotGet k (storeEntry c name data) =
      if matchesComponent k name then some data else slotGet k c := by
  unfold storeEntry
  cases hc : classify name with
  | none =>
    have hno : matchesComponent k name = false := by
      simp only [classify] at hc
      have := List.find?_eq_none.mp hc k (mem_kindOrder k)
      simpa using this
    simp [hno]
  | some k' =>
    have hk' : matchesComponent k' name = true :=
      (classify_eq_some_iff name k').mp hc
    by_cases hkk : k = k'
    · subst hkk
      simp [hk', slotGet_setSlot_same]
    · have hno : matchesComponent k name = false := by
        cases hmk : matchesComponent k name with
        | false => rfl
        | true => exact absurd (matchesComponent_unique name k k' hmk hk') hkk
      simp [hno, slotGet_setSlot_ne k k' hkk]

lemma slotGet_foldl (k : ComponentKind) (entries : List (List Char × List Nat)) (c0 : CapFile) :
    slotGet k (entries.foldl (fun acc e => storeEntry acc e.1 e.2) c0) =
      entries.foldl (fun acc e => if matchesComponent k e.1 then some e.2 else acc)
        (slotGet k c0) := by
  induction entries generalizing c0 with
  | nil => rfl
  | cons e es ih =>
    simp only [List.foldl_cons]
    rw [ih, slotGet_storeEntry]

lemma lastAcc_eq_none_iff (k : ComponentKind) (entries : List (List Char × List Nat)) :
    ∀ init : Option (List Nat),
      entries.foldl (fun acc e => if matchesComponent k e.1 then some e.2 else acc) init = none ↔
        init = none ∧ ∀ e ∈ entries, matchesComponent k e.1 = false := by
  induction entries with
  | nil =>
    intro init
    simp
  | cons e es ih =>
    intro init
    simp only [List.foldl_cons]
    rw [ih]
    cases h : matchesComponent k e.1 <;> simp [h]

lemma built_slot_none_iff (k : ComponentKind) (entries : List (List Char × List Nat)) :
    slotGet k (entries.foldl (fun acc e => storeEntry acc e.1 e.2) {}) = none ↔
      ∀ e ∈ entries, matchesComponent k e.1 = false := by
  rw [slotGet_foldl, slotGet_init, lastAcc_eq_none_iff]
  simp

lemma isNone_false_of_ne (o : Option (List Nat)) (h : o ≠ none) : o.isNone = false := by
  cases o with
  | none => exact absurd rfl h
  | some v => rfl

/-! ### Lemmas about the IJC splitter loop -/

lemma ijcLoop_fuel_irrel (p : String) :
    ∀ f1 f2 b, b.length ≤ f1 → b.length ≤ f2 → ijcLoop p f1 b = ijcLoop p f2 b := by
  intro f1
  induction f1 with
  | zero =>
    intro f2 b h1 _
    have hb : b = [] := List.eq_nil_of_length_eq_zero (Nat.le_zero.mp h1)
    subst hb
    cases f2 <;> rfl
  | succ f ih =>
    intro f2 b h1 h2
    match b with
    | [] => cases f2 <;> rfl
    | [t] =>
      obtain ⟨f2p, rfl⟩ : ∃ f2p, f2 = f2p + 1 := by
        cases f2
        · simp at h2
        · exact ⟨_, rfl⟩
      rfl
    | [t, s1] =>
      obtain ⟨f2p, rfl⟩ : ∃ f2p, f2 = f2p + 1 := by
        cases f2
        · simp at h2
        · exact ⟨_, rfl⟩
      rfl
    | t :: s1 :: s2 :: r =>
      obtain ⟨f2p, rfl⟩ : ∃ f2p, f2 = f2p + 1 := by
        cases f2
        · simp at h2
        · exact ⟨_, rfl⟩
      cases hpi : pyIndex TAGS ((t : Int) - 1) with
      | none => simp [ijcLoop, hpi]
      | some name =>
        have hrest1 : (List.drop (3 + (s1 * 256 + s2)) (t :: s1 :: s2 :: r)).length ≤ f := by
          simp only [List.length_drop, List.length_cons] at *
          omega
        have hrest2 : (List.drop (3 + (s1 * 256 + s2)) (t :: s1 :: s2 :: r)).length ≤ f2p := by
          simp only [List.length_drop, List.length_cons] at *
          omega
        simp only [ijcLoop, hpi]
        rw [ih f2p _ hrest1 hrest2]

/-- The recursion equation of `ijc_to_cap` on a stream with at least a
full 3-byte record prefix. -/
lemma ijc_to_cap_cons (p : String) (t s1 s2 : Nat) (r : List Nat) :
    ijc_to_cap p (t :: s1 :: s2 :: r) =
      match pyIndex TAGS ((t : Int) - 1) with
      | none => ([], some .indexError)
      | some name =>
        ((p ++ "/javacard/" ++ name ++ ".cap",
            (t :: s1 :: s2 :: r).take (3 + (s1 * 256 + s2))) ::
          (ijc_to_cap p ((t :: s1 :: s2 :: r).drop (3 + (s1 * 256 + s2)))).1,
         (ijc_to_cap p ((t :: s1 :: s2 :: r).drop (3 + (s1 * 256 + s2)))).2) := by
  show ijcLoop p (r.length + 2 + 1) (t :: s1 :: s2 :: r) = _
  cases hpi : pyIndex TAGS ((t : Int) - 1) with
  | none => simp [ijcLoop, hpi]
  | some name =>
    simp only [ijcLoop, hpi]
    have hlen : (List.drop (3 + (s1 * 256 + s2)) (t :: s1 :: s2 :: r)).length ≤ r.length + 2 := by
      simp only [List.length_drop, List.length_cons]
      omega
    rw [ijcLoop_fuel_irrel p (r.length + 2) _ _ hlen (le_refl _)]
    rfl

lemma pyIndex_TAGS (t : Nat) (h1 : 1 ≤ t) (h2 : t ≤ 12) :
    pyIndex TAGS ((t : Int) - 1) = some (TAGS.getD (t - 1) "") := by
  interval_cases t <;> rfl

lemma pyIndex_TAGS_ge (t : Nat) (h : 13 ≤ t) : pyIndex TAGS ((t : Int) - 1) = none := by
  have h0 : (0 : Int) ≤ (t : Int) - 1 := by omega
  rw [pyIndex, if_pos h0]
  apply List.get?_eq_none.mpr
  have : ((t : Int) - 1).toNat = t - 1 := by omega
  rw [this]
  simp only [TAGS, List.length]
  omega

/-! ### Claim theorems for the IJC splitter -/

/-- C5: splitting the concatenation of N well-formed records (tag in
1..12, correct 2-byte big-endian size, exactly that many payload bytes)
emits exactly N units, byte-identical to the records and in order, each
under the Component Table name for its tag, with no error. -/
theorem ijc_split_roundtrip (p : String) (rs : List IjcRecord)
    (h : ∀ r ∈ rs, 1 ≤ r.tag ∧ r.tag ≤ 12 ∧ r.payload.length ≤ 65535) :
    ijc_to_cap p (rs.map encodeRecord).flatten =
      (rs.map (fun r => (p ++ "/javacard/" ++ TAGS.getD (r.tag - 1) "" ++ ".cap",
        encodeRecord r)), none) := by
  induction rs with
  | nil => rfl
  | cons r rs ih =>
    obtain ⟨h1, h2, _⟩ := h r (List.mem_cons_self r rs)
    have hrest := ih (fun x hx => h x (List.mem_cons_of_mem r hx))
    simp only [List.map_cons, List.flatten_cons, encodeRecord]
    rw [List.cons_append, List.cons_append, List.cons_append, ijc_to_cap_cons,
      pyIndex_TAGS r.tag h1 h2]
    have hsz : r.payload.length / 256 * 256 + r.payload.length % 256 = r.payload.length := by
      omega
    rw [hsz]
    have hform : r.tag :: (r.payload.length / 256) :: (r.payload.length % 256) ::
        (r.payload ++ (rs.map encodeRecord).flatten) =
        ((r.tag :: (r.payload.length / 256) :: (r.payload.length % 256) :: r.payload) ++
          (rs.map encodeRecord).flatten) := by
      simp
    have hlen : (r.tag :: (r.payload.length / 256) :: (r.payload.length % 256) ::
        r.payload).length = 3 + r.payload.length := by
      simp only [List.length_cons]
      omega
    rw [hform, ← hlen, List.take_left, List.drop_left, hrest]
    simp [encodeRecord]

/-- C6 counterexample: a stream whose first tag byte is 0 (outside 1..12)
does not fail with an unknown-tag error; the splitter emits a unit for it
(under the name Debug, via the Python negative list index -1). -/
theorem ijc_unknown_tag_refuted :
    ¬ (∀ (p : String) (t s1 s2 : Nat) (r : List Nat), t = 0 ∨ 13 ≤ t →
        (ijc_to_cap p (t :: s1 :: s2 :: r)).1 = [] ∧
        (ijc_to_cap p (t :: s1 :: s2 :: r)).2 = some (.unknownTag t)) := by
  intro hall
  have h := (hall "foo" 0 0 0 [] (Or.inl rfl)).1
  exact absurd h (by decide)

/-- C6 amended: the splitter has no tag-range check.  A tag byte of 0
makes the Python expression `TAGS[tag-1]` select the last table entry
(negative indexing), so the unit is emitted under the name Debug with no
error for that record; any tag byte in 13..255 makes `TAGS[tag-1]` raise
`IndexError` (an index error that does not carry the tag value), with no
unit emitted for that record. -/
theorem ijc_tag_out_of_range_behaviour :
    (∀ (p : String) (s1 s2 : Nat) (r : List Nat), ∃ out err,
        ijc_to_cap p ((0 : Nat) :: s1 :: s2 :: r) =
          ((p ++ "/javacard/Debug.cap",
            ((0 : Nat) :: s1 :: s2 :: r).take (3 + (s1 * 256 + s2))) :: out, err)) ∧
    (∀ (p : String) (t s1 s2 : Nat) (r : List Nat), 13 ≤ t →
        ijc_to_cap p (t :: s1 :: s2 :: r) = ([], some .indexError)) := by
  constructor
  · intro p s1 s2 r
    rw [ijc_to_cap_cons]
    have hpi : pyIndex TAGS (((0 : Nat) : Int) - 1) = some "Debug" := rfl
    rw [hpi]
    have hname : p ++ "/javacard/" ++ "Debug" ++ ".cap" = p ++ "/javacard/Debug.cap" := by
      rw [String.append_assoc, String.append_assoc]
      rfl
    rw [← hname]
    exact ⟨_, _, rfl⟩
  · intro p t s1 s2 r ht
    rw [ijc_to_cap_cons, pyIndex_TAGS_ge t ht]

/-- C7 counterexample: a record whose declared size runs past the end of
the stream does not make the splitter fail; the record `tag=1, size=5`
with no payload is emitted as a short 3-byte unit and the split succeeds.
-/
theorem ijc_truncated_refuted :
    ¬ (∀ (p : String) (t s1 s2 : Nat) (r : List Nat), 1 ≤ t → t ≤ 12 →
        r.length < s1 * 256 + s2 →
        (ijc_to_cap p (t :: s1 :: s2 :: r)).2 = some .truncatedStream) := by
  intro hall
  have h := hall "foo" 1 0 5 [] (by decide) (by decide) (by decide)
  exact absurd h (by decide)

/-- C7 amended: when the declared size would read past the end of the
stream, the Python slice `b[0:3+size]` silently truncates at the end of
the stream, so the splitter emits the whole remaining stream as one short
unit and terminates with no error. -/
theorem ijc_truncated_record_emitted (p : String) (t s1 s2 : Nat) (r : List Nat)
    (h1 : 1 ≤ t) (h2 : t ≤ 12) (h3 : r.length < s1 * 256 + s2) :
    ijc_to_cap p (t :: s1 :: s2 :: r) =
      ([(p ++ "/javacard/" ++ TAGS.getD (t - 1) "" ++ ".cap", t :: s1 :: s2 :: r)], none) := by
  rw [ijc_to_cap_cons, pyIndex_TAGS t h1 h2]
  have htake : (t :: s1 :: s2 :: r).take (3 + (s1 * 256 + s2)) = t :: s1 :: s2 :: r := by
    apply List.take_of_length_le
    simp only [List.length_cons]
    omega
  have hdrop : (t :: s1 :: s2 :: r).drop (3 + (s1 * 256 + s2)) = [] := by
    apply List.drop_eq_nil_of_le
    simp only [List.length_cons]
    omega
  rw [htake, hdrop]
  rfl

/-! ### Claim theorems for archive construction -/

/-- When every mandatory component has a matching entry, `capFileInit`
reaches the final else branch and returns the populated object. -/
lemma capFileInit_eq_ok (entries : List (List Char × List Nat))
    (hall : ∀ k ∈ mandatoryKinds, ∃ e ∈ entries, matchesComponent k e.1 = true) :
    capFileInit entries = .ok (entries.foldl (fun acc e => storeEntry acc e.1 e.2) {}) := by
  simp only [capFileInit]
  generalize hX : entries.foldl (fun acc e => storeEntry acc e.1 e.2) ({} : CapFile) = X
  have hiff : ∀ k, slotGet k X = none ↔ ∀ e ∈ entries, matchesComponent k e.1 = false := by
    intro k
    rw [← hX]
    exact built_slot_none_iff k entries
  have hfalse : ∀ k ∈ mandatoryKinds, (slotGet k X).isNone = false := by
    intro k hk
    apply isNone_false_of_ne
    intro hn
    obtain ⟨e, he, hm⟩ := hall k hk
    have h0 := (hiff k).mp hn e he
    rw [hm] at h0
    exact Bool.noConfusion h0
  have h1 : X.component_header.isNone = false := by
    simpa [slotGet] using hfalse .header (by decide)
  have h2 : X.component_directory.isNone = false := by
    simpa [slotGet] using hfalse .directory (by decide)
  have h3 : X.component_import.isNone = false := by
    simpa [slotGet] using hfalse .importC (by decide)
  have h4 : X.component_constantPool.isNone = false := by
    simpa [slotGet] using hfalse .constantPool (by decide)
  have h5 : X.component_class.isNone = false := by
    simpa [slotGet] using hfalse .classC (by decide)
  have h6 : X.component_method.isNone = false := by
    simpa [slotGet] using hfalse .method (by decide)
  have h7 : X.component_staticField.isNone = false := by
    simpa [slotGet] using hfalse .staticField (by decide)
  have h8 : X.component_referenceLocation.isNone = false := by
    simpa [slotGet] using hfalse .referenceLocation (by decide)
  have h9 : X.component_descriptor.isNone = false := by
    simpa [slotGet] using hfalse .descriptor (by decide)
  simp only [h1, h2, h3, h4, h5, h6, h7, h8, h9, Bool.false_eq_true, if_false]

/-- C2: construction succeeds exactly when every one of the nine
mandatory components has a matching archive entry; otherwise it fails
with a missing-component error naming a mandatory component that has no
matching entry, and no archive object is produced. -/
theorem cap_construction_mandatory (entries : List (List Char × List Nat)) :
    ((∀ k ∈ mandatoryKinds, ∃ e ∈ entries, matchesComponent k e.1 = true) →
        ∃ c, capFileInit entries = .ok c) ∧
    ((∃ k ∈ mandatoryKinds, ∀ e ∈ entries, matchesComponent k e.1 = false) →
        ∃ k ∈ mandatoryKinds, (∀ e ∈ entries, matchesComponent k e.1 = false) ∧
          capFileInit entries = .error (.missingComponent (nameOfKind k))) := by
  constructor
  · intro hall
    exact ⟨_, capFileInit_eq_ok entries hall⟩
  · intro hex
    simp only [capFileInit]
    generalize hX : entries.foldl (fun acc e => storeEntry acc e.1 e.2) ({} : CapFile) = X
    have hiff : ∀ k, slotGet k X = none ↔ ∀ e ∈ entries, matchesComponent k e.1 = false := by
      intro k
      rw [← hX]
      exact built_slot_none_iff k entries
    obtain ⟨k0, hk0, hk0none⟩ := hex
    by_cases h1 : X.component_header = none
    · refine ⟨.header, by decide, (hiff .header).mp h1, ?_⟩
      simp [h1, nameOfKind]
    by_cases h2 : X.component_directory = none
    · refine ⟨.directory, by decide, (hiff .directory).mp h2, ?_⟩
      simp [isNone_false_of_ne _ h1, h2, nameOfKind]
    by_cases h3 : X.component_import = none
    · refine ⟨.importC, by decide, (hiff .importC).mp h3, ?_⟩
      simp [isNone_false_of_ne _ h1, isNone_false_of_ne _ h2, h3, nameOfKind]
    by_cases h4 : X.component_constantPool = none
    · refine ⟨.constantPool, by decide, (hiff .constantPool).mp h4, ?_⟩
      simp [isNone_false_of_ne _ h1, isNone_false_of_ne _ h2, isNone_false_of_ne _ h3,
        h4, nameOfKind]
    by_cases h5 : X.component_class = none
    · refine ⟨.classC, by decide, (hiff .classC).mp h5, ?_⟩
      simp [isNone_false_of_ne _ h1, isNone_false_of_ne _ h2, isNone_false_of_ne _ h3,
        isNone_false_of_ne _ h4, h5, nameOfKind]
    by_cases h6 : X.component_method = none
    · refine ⟨.method, by decide, (hiff .method).mp h6, ?_⟩
      simp [isNone_false_of_ne _ h1, isNone_false_of_ne _ h2, isNone_false_of_ne _ h3,
        isNone_false_of_ne _ h4, isNone_false_of_ne _ h5, h6, nameOfKind]
    by_cases h7 : X.component_staticField = none
    · refine ⟨.staticField, by decide, (hiff .staticField).mp h7, ?_⟩
      simp [isNone_false_of_ne _ h1, isNone_false_of_ne _ h2, isNone_false_of_ne _ h3,
        isNone_false_of_ne _ h4, isNone_false_of_ne _ h5, isNone_false_of_ne _ h6,
        h7, nameOfKind]
    by_cases h8 : X.component_referenceLocation = none
    · refine ⟨.referenceLocation, by decide, (hiff .referenceLocation).mp h8, ?_⟩
      simp [isNone_false_of_ne _ h1, isNone_false_of_ne _ h2, isNone_false_of_ne _ h3,
        isNone_false_of_ne _ h4, isNone_false_of_ne _ h5, isNone_false_of_ne _ h6,
        isNone_false_of_ne _ h7, h8, nameOfKind]
    by_cases h9 : X.component_descriptor = none
    · refine ⟨.descriptor, by decide, (hiff .descriptor).mp h9, ?_⟩
      simp [isNone_false_of_ne _ h1, isNone_false_of_ne _ h2, isNone_false_of_ne _ h3,
        isNone_false_of_ne _ h4, isNone_false_of_ne _ h5, isNone_false_of_ne _ h6,
        isNone_false_of_ne _ h7, isNone_false_of_ne _ h8, h9, nameOfKind]
    exfalso
    have hnone := (hiff k0).mpr hk0none
    fin_cases hk0 <;> simp [slotGet] at hnone <;> exact absurd hnone (by assumption)

/-- C8: an entry name is classified as component `k` exactly when its
lowercased form ends in the suffix for `k` (case-insensitive suffix
match), and an entry matching no component suffix is classified as
nothing (silently discarded). -/
theorem classify_suffix_correct (name : List Char) :
    (∀ k, classify name = some k ↔ matchesComponent k name = true) ∧
    (classify name = none ↔ ∀ k, matchesComponent k name = false) := by
  refine ⟨fun k => classify_eq_some_iff name k, ?_, ?_⟩
  · intro hn k
    cases hm : matchesComponent k name with
    | false => rfl
    | true =>
      rw [(classify_eq_some_iff name k).mpr hm] at hn
      exact Option.noConfusion hn
  · intro hall
    cases hc : classify name with
    | none => rfl
    | some k =>
      have h0 := (classify_eq_some_iff name k).mp hc
      rw [hall k] at h0
      exact Bool.noConfusion h0

theorem classify_suffix_correct_witness :
    classify ("FOO/javacard/Header.cap".toList) = some .header :=
  ((classify_suffix_correct ("FOO/javacard/Header.cap".toList)).1 .header).mpr (by decide)

/-! ### Claim theorems for the loadfile assembly -/

lemma pyGuard_eq_optBytes (o : Option (List Nat)) : pyGuard o = optBytes o := by
  cases o with
  | none => rfl
  | some l => cases l <;> rfl

/-- C1: for an archive object whose mandatory slots are populated (as
construction guarantees), the loadfile is the hex rendering of the
byte-exact concatenation of the present components in the fixed order
Header, Directory, Import, Applet, Class, Method, StaticField, Export,
ConstantPool, ReferenceLocation, Descriptor (absent or empty optional
components contribute no bytes), and the Debug slot never influences the
output. -/
theorem get_loadfile_order (c : CapFile) (h d imp cl me sf cp rl : List Nat)
    (hh : c.component_header = some h) (hd : c.component_directory = some d)
    (hi : c.component_import = some imp) (hcl : c.component_class = some cl)
    (hme : c.component_method = some me) (hsf : c.component_staticField = some sf)
    (hcp : c.component_constantPool = some cp)
    (hrl : c.component_referenceLocation = some rl) :
    get_loadfile c = some (b2h (h ++ d ++ imp ++ optBytes c.component_applet ++ cl ++ me ++ sf
      ++ optBytes c.component_export ++ cp ++ rl ++ optBytes c.component_descriptor)) ∧
    ∀ dbg, get_loadfile { c with component_debug := dbg } = get_loadfile c := by
  constructor
  · simp only [get_loadfile, hh, hd, hi, hcl, hme, hsf, hcp, hrl, pyGuard_eq_optBytes]
  · intro dbg
    cases c
    rfl

/-- A fixed archive object with distinguishable single-byte components,
used to instantiate the loadfile-order theorem. -/
def cfC1 : CapFile :=
  { component_header := some [1], component_directory := some [2],
    component_import := some [3], component_class := some [5],
    component_method := some [6], component_staticField := some [7],
    component_constantPool := some [4], component_referenceLocation := some [8],
    component_applet := some [10], component_export := none,
    component_descriptor := some [9], component_debug := some [99] }

theorem get_loadfile_order_witness :
    get_loadfile cfC1 = some (b2h ([1] ++ [2] ++ [3] ++ optBytes cfC1.component_applet ++ [5]
      ++ [6] ++ [7] ++ optBytes cfC1.component_export ++ [4] ++ [8]
      ++ optBytes cfC1.component_descriptor)) ∧
    get_loadfile { cfC1 with component_debug := none } = get_loadfile cfC1 :=
  ⟨(get_loadfile_order cfC1 [1] [2] [3] [5] [6] [7] [4] [8]
      rfl rfl rfl rfl rfl rfl rfl rfl).1,
   (get_loadfile_order cfC1 [1] [2] [3] [5] [6] [7] [4] [8]
      rfl rfl rfl rfl rfl rfl rfl rfl).2 none⟩

lemma get_loadfile_empty_descriptor (c : CapFile) (h : c.component_descriptor = some []) :
    get_loadfile c = get_loadfile { c with component_descriptor := none } := by
  cases c
  simp only [CapFile.mk.injEq] at h ⊢
  subst h
  rfl

/-- C10: when the archive source supplies entries for all nine mandatory
components but the (last) Descriptor entry has zero-length data,
construction still succeeds (the mandatory check tests only for absence),
the Descriptor slot holds the empty byte sequence, and the loadfile is
the same as if the Descriptor slot were absent: the truthiness guard in
`get_loadfile` omits the empty component. -/
theorem empty_descriptor_construction (entries : List (List Char × List Nat))
    (hmand : ∀ k ∈ mandatoryKinds, ∃ e ∈ entries, matchesComponent k e.1 = true)
    (hdesc : entries.foldl
        (fun acc e => if matchesComponent .descriptor e.1 then some e.2 else acc) none =
      some []) :
    ∃ c, capFileInit entries = .ok c ∧ c.component_descriptor = some [] ∧
      get_loadfile c = get_loadfile { c with component_descriptor := none } := by
  refine ⟨_, capFileInit_eq_ok entries hmand, ?_, ?_⟩
  · have hs := slotGet_foldl .descriptor entries {}
    rw [slotGet_init, hdesc] at hs
    simpa [slotGet] using hs
  · apply get_loadfile_empty_descriptor
    have hs := slotGet_foldl .descriptor entries {}
    rw [slotGet_init, hdesc] at hs
    simpa [slotGet] using hs

/-- A complete set of mandatory entries whose Descriptor entry is
zero-length. -/
def entriesC10 : List (List Char × List Nat) :=
  [("pkg/javacard/Header.cap".toList, [1, 0, 0]),
   ("pkg/javacard/Directory.cap".toList, [2, 0, 0]),
   ("pkg/javacard/Import.cap".toList, [4, 0, 0]),
   ("pkg/javacard/ConstantPool.cap".toList, [5, 0, 0]),
   ("pkg/javacard/Class.cap".toList, [6, 0, 0]),
   ("pkg/javacard/Method.cap".toList, [7, 0, 0]),
   ("pkg/javacard/StaticField.cap".toList, [8, 0, 0]),
   ("pkg/javacard/RefLocation.cap".toList, [9, 0, 0]),
   ("pkg/javacard/Descriptor.cap".toList, [])]

theorem empty_descriptor_construction_witness :
    ∃ c, capFileInit entriesC10 = .ok c ∧ c.component_descriptor = some [] ∧
      get_loadfile c = get_loadfile { c with component_descriptor := none } :=
  empty_descriptor_construction entriesC10 (by decide) (by decide)

/-- A complete set of mandatory entries (all non-empty), instantiating
the construction-success half of the mandatory-component theorem. -/
def entriesC2 : List (List Char × List Nat) :=
  [("pkg/javacard/Header.cap".toList, [1, 0, 0]),
   ("pkg/javacard/Directory.cap".toList, [2, 0, 0]),
   ("pkg/javacard/Import.cap".toList, [4, 0, 0]),
   ("pkg/javacard/ConstantPool.cap".toList, [5, 0, 0]),
   ("pkg/javacard/Class.cap".toList, [6, 0, 0]),
   ("pkg/javacard/Method.cap".toList, [7, 0, 0]),
   ("pkg/javacard/StaticField.cap".toList, [8, 0, 0]),
   ("pkg/javacard/RefLocation.cap".toList, [9, 0, 0]),
   ("pkg/javacard/Descriptor.cap".toList, [10, 0, 0])]

theorem cap_construction_mandatory_witness :
    (∃ c, capFileInit entriesC2 = .ok c) ∧
    (∃ k ∈ mandatoryKinds, (∀ e ∈ ([] : List (List Char × List Nat)), matchesComponent k e.1 = false) ∧
      capFileInit [] = .error (.missingComponent (nameOfKind k))) :=
  ⟨(cap_construction_mandatory entriesC2).1 (by decide),
   (cap_construction_mandatory []).2 (by decide)⟩

/-! ### Claim theorems for the Header decoder and AID accessors -/

/-- C4: on an archive whose Header component parses, `get_loadfile_aid`
returns the package AID when the decoded magic equals 0xDECAFFED and
fails with an invalid-magic error carrying the found value and the
expected constant otherwise; there is no fallback. -/
theorem get_loadfile_aid_magic (c : CapFile) (bs : List Nat) (h : HeaderComponent)
    (rest : List Nat) (hb : c.component_header = some bs)
    (hp : header_component_compact_parse bs = some (h, rest)) :
    (h.magic = 0xDECAFFED → get_loadfile_aid c = .ok h.package.AID) ∧
    (h.magic ≠ 0xDECAFFED →
      get_loadfile_aid c = .error (.invalidMagic h.magic 0xDECAFFED)) := by
  constructor <;> intro hm <;> simp [get_loadfile_aid, hb, hp, hm]

/-- A Header component with the correct magic 0xDECAFFED and package AID
01 02 03 04 05. -/
def headerBytesC4 : List Nat :=
  [1, 0, 15, 222, 202, 255, 237, 0, 2, 0, 0, 1, 5, 1, 2, 3, 4, 5]

/-- Same Header component with magic 0xCAFEBABE instead. -/
def headerBytesC4bad : List Nat :=
  [1, 0, 15, 202, 254, 186, 190, 0, 2, 0, 0, 1, 5, 1, 2, 3, 4, 5]

def cfC4 : CapFile := { component_header := some headerBytesC4 }

def cfC4bad : CapFile := { component_header := some headerBytesC4bad }

theorem get_loadfile_aid_magic_witness :
    get_loadfile_aid cfC4 = .ok [1, 2, 3, 4, 5] ∧
    get_loadfile_aid cfC4bad = .error (.invalidMagic 0xCAFEBABE 0xDECAFFED) :=
  ⟨(get_loadfile_aid_magic cfC4 headerBytesC4
      (withName ⟨1, 15, 0xDECAFFED, 0, 2, 0, ⟨0, 1, [1, 2, 3, 4, 5]⟩⟩ none) []
      rfl (by decide)).1 rfl,
   (get_loadfile_aid_magic cfC4bad headerBytesC4bad
      (withName ⟨1, 15, 0xCAFEBABE, 0, 2, 0, ⟨0, 1, [1, 2, 3, 4, 5]⟩⟩ none) []
      rfl (by decide)).2 (by decide)⟩

/-- C9 counterexample: a Header component that the decoder accepts with
one unconsumed trailing byte (an incomplete LV, length byte 5 with no
data) decodes with `package_name` absent even though unconsumed bytes
remain, refuting presence-iff-remaining-bytes. -/
theorem header_optional_name_refuted :
    ¬ (∀ (bs : List Nat) (h : HeaderComponent) (rest : List Nat),
        header_component_compact_parse bs = some (h, rest) →
        ((h.package_name).isSome = true ↔ rest ≠ [])) := by
  intro hall
  have h := hall [1, 0, 16, 222, 202, 255, 237, 0, 2, 0, 0, 1, 5, 1, 2, 3, 4, 5, 5]
    (withName ⟨1, 16, 0xDECAFFED, 0, 2, 0, ⟨0, 1, [1, 2, 3, 4, 5]⟩⟩ none) [5] (by decide)
  simp [withName] at h

/-- C9 amended: after the fixed Header fields (through the `package`
sub-record) are decoded leaving remainder `r`, the decoded `package_name`
is present if and only if `r` starts with a complete LV field (a length
byte followed by at least that many bytes).  Presence is length-driven,
but by completeness of the LV, not by mere non-emptiness of `r`. -/
theorem header_optional_name_lv (bs : List Nat) (f : HeaderFields) (r : List Nat)
    (hp : header_fields_parse bs = some (f, r)) :
    ∃ h rest, header_component_compact_parse bs = some (h, rest) ∧
      ((h.package_name).isSome ↔ (parseLV r).isSome) ∧
      ((parseLV r).isSome ↔ ∃ n t, r = n :: t ∧ n ≤ t.length) := by
  have hlv : (parseLV r).isSome ↔ ∃ n t, r = n :: t ∧ n ≤ t.length := by
    cases r with
    | nil => simp [parseLV]
    | cons n t =>
      simp only [parseLV]
      by_cases hn : n ≤ t.length
      · simp only [if_pos hn, Option.isSome_some, true_iff]
        exact ⟨n, t, rfl, hn⟩
      · simp only [if_neg hn, Option.isSome_none, Bool.false_eq_true, false_iff]
        rintro ⟨n', t', heq, hle⟩
        cases heq
        exact hn hle
  cases hplv : parseLV r with
  | none =>
    rw [hplv] at hlv
    refine ⟨withName f none, r, ?_, ?_, hlv⟩
    · simp [header_component_compact_parse, hp, hplv]
    · simp [withName]
  | some pr =>
    rw [hplv] at hlv
    refine ⟨withName f (some pr.1), pr.2, ?_, ?_, hlv⟩
    · simp [header_component_compact_parse, hp, hplv]
    · simp [withName]

/-- Fixed Header fields instantiating the amended optional-name theorem
at the counterexample bytes (remainder is the single byte 5, an
incomplete LV). -/
theorem header_optional_name_lv_witness :
    ∃ h rest,
      header_component_compact_parse
          [1, 0, 16, 222, 202, 255, 237, 0, 2, 0, 0, 1, 5, 1, 2, 3, 4, 5, 5] =
        some (h, rest) ∧
      ((h.package_name).isSome ↔ (parseLV [5]).isSome) ∧
      ((parseLV [5]).isSome ↔ ∃ n t, ([5] : List Nat) = n :: t ∧ n ≤ t.length) :=
  header_optional_name_lv [1, 0, 16, 222, 202, 255, 237, 0, 2, 0, 0, 1, 5, 1, 2, 3, 4, 5, 5]
    ⟨1, 16, 0xDECAFFED, 0, 2, 0, ⟨0, 1, [1, 2, 3, 4, 5]⟩⟩ [5] (by decide)

deriving instance DecidableEq for Except

/-- An Applet component with exactly one applet (AID a0 00 00 00 62,
install method offset 8). -/
def appletBytesC3 : List Nat := [3, 0, 9, 1, 5, 160, 0, 0, 0, 98, 0, 8]

def cfC3 : CapFile := { component_applet := some appletBytesC3 }

/-- C3 (code divergence): on an Applet component with `count = 1`,
`get_applet_aid` returns the AID at index 0, rejects index 2 with the
range error, but at `index = count = 1` the check `index > count` passes
and the zero-based list subscript raises a bare `IndexError` instead of
the range error the specification requires for every `index >= count`. -/
theorem applet_index_equal_count_bug :
    applet_component_compact_parse appletBytesC3 =
      some (⟨3, 9, 1, [⟨[160, 0, 0, 0, 98], 8⟩]⟩, []) ∧
    get_applet_aid cfC3 0 = .ok [160, 0, 0, 0, 98] ∧
    get_applet_aid cfC3 1 = .error .indexError ∧
    get_applet_aid cfC3 2 = .error (.appletIndexOutOfRange 2 1) := by
  refine ⟨by decide, by decide, by decide, by decide⟩

/-! ### Witnesses for the splitter theorems -/

theorem ijc_split_roundtrip_witness :
    ijc_to_cap "foo" [1, 0, 0] = ([("foo/javacard/Header.cap", [1, 0, 0])], none) := by
  have h := ijc_split_roundtrip "foo" [⟨1, []⟩] (by decide)
  rw [show ((([⟨1, []⟩] : List IjcRecord).map encodeRecord).flatten) = [1, 0, 0] from rfl] at h
  rw [h]
  decide

theorem ijc_tag_out_of_range_witness :
    (∃ out err, ijc_to_cap "foo" ((0 : Nat) :: 0 :: 0 :: []) =
      (("foo" ++ "/javacard/Debug.cap",
        ((0 : Nat) :: 0 :: 0 :: []).take (3 + (0 * 256 + 0))) :: out, err)) ∧
    ijc_to_cap "foo" (13 :: 0 :: 0 :: []) = ([], some .indexError) :=
  ⟨ijc_tag_out_of_range_behaviour.1 "foo" 0 0 [],
   ijc_tag_out_of_range_behaviour.2 "foo" 13 0 0 [] (by norm_num)⟩

theorem ijc_truncated_record_witness :
    ijc_to_cap "foo" (1 :: 0 :: 5 :: []) =
      ([("foo" ++ "/javacard/" ++ TAGS.getD (1 - 1) "" ++ ".cap", 1 :: 0 :: 5 :: [])], none) :=
  ijc_truncated_record_emitted "foo" 1 0 5 [] (by norm_num) (by norm_num) (by norm_num)

end Javacard
